import Mathlib

/-!
Verification of the site-inspector geometry and workflow engine.

This file gives a shallow embedding of the polygon-geometry and workflow
code of the repository (site-boundary-manager.js and the unnamed manager
files) and proves, or refutes, the specified properties about it.

Modelling conventions:
* JavaScript numbers are idealised as elements of a linear ordered field
  `K` (instantiated at `ℚ` where everything is decidable and at `ℝ` where
  the source uses transcendental functions such as `Math.sin`).
* A coordinate pair `[lng, lat]` becomes a pair `K × K`; the JavaScript
  test `a[0] === b[0] && a[1] === b[1]` becomes equality of pairs.
* `null`/`undefined` arguments become `Option` values.
* External collaborators (the turf area library, `JSON.parse`, the HTTP
  fetch layer) are modelled as explicit function parameters or as small
  event models; each such spot is documented at the definition.
-/

set_option linter.unusedSectionVars false

namespace SiteInspector

variable {K : Type} [LinearOrderedField K] [DecidableEq K]

/-- Derived edge record, from `calculatePolygonEdges`
(site-boundary-manager.js, lines 536-566).  The source field `end` is a
reserved word in Lean and is rendered `endPoint`. -/
structure Edge (K : Type) where
  index : ℕ
  start : K × K
  endPoint : K × K
  midpoint : K × K
deriving DecidableEq

/-- The de-duplication step of `calculatePolygonEdges`: the source drops an
explicit closing point when `coordinates.length > 3` and the first point
equals the last point coordinate-wise (`coords.slice(0, -1)`). -/
def dedupedRing (coords : List (K × K)) : List (K × K) :=
  if 3 < coords.length ∧
      coords.getD 0 (0, 0) = coords.getD (coords.length - 1) (0, 0) then
    coords.dropLast
  else coords

/-- Embedding of `calculatePolygonEdges` (site-boundary-manager.js,
lines 536-566).  A `none` argument models a null/undefined coordinates
argument.  The source guard `start && end && start.length >= 2 &&
end.length >= 2` is always true in the pair model, so every loop
iteration pushes an edge. -/
def calculatePolygonEdges (coordinates : Option (List (K × K))) : List (Edge K) :=
  match coordinates with
  | none => []
  | some coords =>
    if coords.length < 3 then []
    else
      let coordsToProcess := dedupedRing coords
      let n := coordsToProcess.length
      (List.range n).map fun i =>
        let s := coordsToProcess.getD i (0, 0)
        let e := coordsToProcess.getD ((i + 1) % n) (0, 0)
        { index := i, start := s, endPoint := e
          midpoint := ((s.1 + e.1) / 2, (s.2 + e.2) / 2) }

/-- Embedding of `calculatePolygonAreaFallback` (site-boundary-manager.js,
lines 568-581): the planar shoelace loop `for (i = 0; i < n - 1; i++)`
with wrap index `j = (i + 1) % (n - 1)`, returning `Math.abs(area) / 2`. -/
def calculatePolygonAreaFallback (coordinates : Option (List (K × K))) : K :=
  match coordinates with
  | none => 0
  | some coords =>
    if coords.length < 3 then 0
    else
      let n := coords.length
      |∑ i ∈ Finset.range (n - 1),
          ((coords.getD i (0, 0)).1 * (coords.getD ((i + 1) % (n - 1)) (0, 0)).2
            - (coords.getD ((i + 1) % (n - 1)) (0, 0)).1 * (coords.getD i (0, 0)).2)| / 2

/-- Models the `Math.atan2` builtin on real arguments. -/
noncomputable def jsAtan2 (y x : ℝ) : ℝ :=
  if 0 < x then Real.arctan (y / x)
  else if x < 0 ∧ 0 ≤ y then Real.arctan (y / x) + Real.pi
  else if x < 0 ∧ y < 0 then Real.arctan (y / x) - Real.pi
  else if x = 0 ∧ 0 < y then Real.pi / 2
  else if x = 0 ∧ y < 0 then -(Real.pi / 2)
  else 0

/-- Embedding of `calculateDistance` (site-boundary-manager.js,
lines 913-927): the haversine great-circle distance with Earth radius
`6371e3` metres. -/
noncomputable def calculateDistance (lon1 lat1 lon2 lat2 : ℝ) : ℝ :=
  let R : ℝ := 6371000
  let phi1 := lat1 * Real.pi / 180
  let phi2 := lat2 * Real.pi / 180
  let dPhi := (lat2 - lat1) * Real.pi / 180
  let dLambda := (lon2 - lon1) * Real.pi / 180
  let a := Real.sin (dPhi / 2) * Real.sin (dPhi / 2) +
      Real.cos phi1 * Real.cos phi2 * Real.sin (dLambda / 2) * Real.sin (dLambda / 2)
  let c := 2 * jsAtan2 (Real.sqrt a) (Real.sqrt (1 - a))
  R * c

/-- Embedding of `calculatePolygonPerimeter` (site-boundary-manager.js,
lines 901-911): guard on fewer than 3 points, then the sum of consecutive
haversine distances `for (i = 0; i < length - 1; i++)`. -/
noncomputable def calculatePolygonPerimeter (coordinates : Option (List (ℝ × ℝ))) : ℝ :=
  match coordinates with
  | none => 0
  | some coords =>
    if coords.length < 3 then 0
    else
      ∑ i ∈ Finset.range (coords.length - 1),
        calculateDistance (coords.getD i (0, 0)).1 (coords.getD i (0, 0)).2
          (coords.getD (i + 1) (0, 0)).1 (coords.getD (i + 1) (0, 0)).2

/-- Embedding of `calculatePolygonArea` (site-boundary-manager.js,
lines 889-899).  The external `turf.area` call is modelled as an oracle
`turfArea`; `none` models the call throwing, in which case the source
falls back to the planar shoelace computation. -/
noncomputable def calculatePolygonArea (turfArea : List (ℝ × ℝ) → Option ℝ)
    (coordinates : Option (List (ℝ × ℝ))) : ℝ :=
  match coordinates with
  | none => 0
  | some coords =>
    if coords.length < 3 then 0
    else
      match turfArea coords with
      | some a => a
      | none => calculatePolygonAreaFallback (some coords)

/-- Embedding of the drawing branch of `handleMapClick`
(site-boundary-manager.js, lines 229-247): outside `draw_polygon` mode the
click is ignored; a click within `0.000001` degrees of the last
accumulated point in both coordinates is dropped; otherwise the point is
pushed. -/
def handleMapClickBoundary (isDrawPolygonMode : Bool) (drawingPoints : List (K × K))
    (p : K × K) : List (K × K) :=
  if !isDrawPolygonMode then drawingPoints
  else
    match drawingPoints.getLast? with
    | some lastPoint =>
      if |lastPoint.1 - p.1| < 1 / 1000000 ∧ |lastPoint.2 - p.2| < 1 / 1000000 then
        drawingPoints
      else drawingPoints ++ [p]
    | none => drawingPoints ++ [p]

/-! ### Edge selection state machine (unnamed/part_001, `handleEdgeSelection`) -/

/-- Selected front and back edges (`this.selectedEdges` in unnamed/part_001);
both start as null. -/
structure SelectedEdges (K : Type) where
  front : Option (Edge K)
  back : Option (Edge K)
deriving DecidableEq

/-- The part of the setback-manager state that `handleEdgeSelection`
(unnamed/part_001, lines 324-364) reads and writes: the
`isEdgeSelectionMode` flag and the selected edges. -/
structure EdgeSelState (K : Type) where
  isEdgeSelectionMode : Bool
  selected : SelectedEdges K
deriving DecidableEq

/-- State on entering edge-selection mode: mode flag set, no edges selected. -/
def initialEdgeSelState : EdgeSelState K := ⟨true, ⟨none, none⟩⟩

/-- Embedding of `handleEdgeSelection` (unnamed/part_001, lines 324-364),
taken at the point where the click has been resolved by `findNearestEdge`:
`sel` is the resolved edge (or `none` when no edge is within the
threshold, or when the click event is invalid).  Outside selection mode
the handler returns immediately.  The first resolved edge becomes `front`;
a later resolved edge becomes `back` only when `back` is unset and its
index differs from the front index, in which case `exitEdgeSelectionMode`
clears the mode flag.  All other branches only update visualisation. -/
def handleEdgeSelectionResolved (st : EdgeSelState K) (sel : Option (Edge K)) :
    EdgeSelState K :=
  if !st.isEdgeSelectionMode then st
  else
    match sel with
    | none => st
    | some e =>
      match st.selected.front with
      | none => { st with selected := { st.selected with front := some e } }
      | some f =>
        if st.selected.back = none ∧ e.index ≠ f.index then
          { isEdgeSelectionMode := false
            selected := { front := some f, back := some e } }
        else st

/-- Embedding of `distanceToLineSegment` (unnamed/part_001, lines 382-410):
planar distance from a point to a segment, with the degenerate-segment
guard `lenSq !== 0` leaving `param = -1`. -/
noncomputable def distanceToLineSegment (point lineStart lineEnd : ℝ × ℝ) : ℝ :=
  let A := point.1 - lineStart.1
  let B := point.2 - lineStart.2
  let C := lineEnd.1 - lineStart.1
  let D := lineEnd.2 - lineStart.2
  let dot := A * C + B * D
  let lenSq := C * C + D * D
  let param := if lenSq ≠ 0 then dot / lenSq else -1
  let xx := if param < 0 then lineStart.1
    else if 1 < param then lineEnd.1 else lineStart.1 + param * C
  let yy := if param < 0 then lineStart.2
    else if 1 < param then lineEnd.2 else lineStart.2 + param * D
  let dx := point.1 - xx
  let dy := point.2 - yy
  Real.sqrt (dx * dx + dy * dy)

/-- Embedding of `findNearestEdge` (unnamed/part_001, lines 367-380): the
nearest edge to the click point strictly within the `0.0001` threshold,
scanning the edge list in order (`forEach` keeps the first of equal
minima). -/
noncomputable def findNearestEdge (polygonEdges : List (Edge ℝ)) (clickPoint : ℝ × ℝ) :
    Option (Edge ℝ) :=
  (polygonEdges.foldl
    (fun acc edge =>
      let distance := distanceToLineSegment clickPoint edge.start edge.endPoint
      match acc.2 with
      | none =>
        if distance < 1 / 10000 then (some edge, some distance) else acc
      | some minDistance =>
        if distance < minDistance ∧ distance < 1 / 10000 then (some edge, some distance)
        else acc)
    ((none : Option (Edge ℝ)), (none : Option ℝ))).1

/-! ### Setback numeric policy (unnamed/part_001 and site-boundary-manager.js) -/

/-- Models the JavaScript idiom `parseFloat(v) || d`: `none` models a
missing input element or a non-numeric value (where `parseFloat` yields
`NaN`, which is falsy), and a parsed value of `0` is also falsy, so both
fall back to the default `d`. -/
def jsNumOr (v : Option K) (d : K) : K :=
  match v with
  | none => d
  | some x => if x = 0 then d else x

/-- Embedding of the setback reads shared by `calculateBuildableAreaPreview`
(unnamed/part_001, lines 805-807) and `recalculateBuildableArea`
(unnamed/part_001, lines 845-847): `parseFloat(...value) || 4.5`,
`... || 3.5`, `... || 1.5` for front, back and side respectively. -/
def readSetbackInputs (domFront domBack domSide : Option K) : K × K × K :=
  (jsNumOr domFront (9 / 2), jsNumOr domBack (7 / 2), jsNumOr domSide (3 / 2))

/-- One entry of the `edgeClassifications` array built by
`handleBuildableAreaPreview` and `handleBuildableAreaCalculation`
(site-boundary-manager.js, lines 1848-1881 and 1945-1978). -/
structure EdgeClassificationEntry (K : Type) where
  index : ℕ
  type : String
  setback : K
deriving DecidableEq

/-- The event payload emitted by unnamed/part_001 and consumed by the two
buildable-area handlers: setbacks plus the current edge selection and edge
list.  In general event data the setbacks are modelled as `Option K` so a
missing or `NaN` field is representable. -/
structure BuildableAreaEventData (K : Type) where
  frontSetback : Option K
  backSetback : Option K
  sideSetback : Option K
  selectedFront : Option (Edge K)
  selectedBack : Option (Edge K)
  polygonEdges : List (Edge K)

/-- The `requirements` object shaped by both buildable-area handlers
(site-boundary-manager.js, lines 1883-1888 and 1981-1986): the raw event
setback values are forwarded unchanged.  The `...council_requirements`
spread is modelled as absent (the common case of no council data). -/
structure Requirements (K : Type) where
  front_setback : Option K
  side_setback : Option K
  rear_setback : Option K
deriving DecidableEq

/-- Embedding of the `edgeClassifications` construction shared verbatim by
`handleBuildableAreaPreview` (site-boundary-manager.js, lines 1848-1881)
and `handleBuildableAreaCalculation` (lines 1945-1978): when both a front
and a back edge are selected, each index is classified front/back/side by
comparison with the selected indices and paired with
`parseFloat(data.xSetback) || 0`; otherwise every edge is a side edge. -/
def buildEdgeClassifications (data : BuildableAreaEventData K) :
    List (EdgeClassificationEntry K) :=
  match data.selectedFront, data.selectedBack with
  | some fe, some be =>
    (List.range data.polygonEdges.length).map fun index =>
      if index = fe.index then
        { index := index, type := "front", setback := jsNumOr data.frontSetback 0 }
      else if index = be.index then
        { index := index, type := "back", setback := jsNumOr data.backSetback 0 }
      else
        { index := index, type := "side", setback := jsNumOr data.sideSetback 0 }
  | _, _ =>
    (List.range data.polygonEdges.length).map fun index =>
      { index := index, type := "side", setback := jsNumOr data.sideSetback 0 }

/-- The request-shaping step of the buildable-area handlers: the
`requirements` object (raw pass-through) together with the edge
classifications. -/
def buildCalcRequest (data : BuildableAreaEventData K) :
    Requirements K × List (EdgeClassificationEntry K) :=
  ({ front_setback := data.frontSetback
     side_setback := data.sideSetback
     rear_setback := data.backSetback }, buildEdgeClassifications data)

/-- The event payload produced by the preview (and recalculate) path of
unnamed/part_001: the DOM inputs are read with
`parseFloat(...) || 4.5 / 3.5 / 1.5` and emitted together with the current
edge selection and edge list. -/
def previewPipelineData (domFront domBack domSide : Option K)
    (selectedFront selectedBack : Option (Edge K)) (polygonEdges : List (Edge K)) :
    BuildableAreaEventData K :=
  let s := readSetbackInputs domFront domBack domSide
  { frontSetback := some s.1
    backSetback := some s.2.1
    sideSetback := some s.2.2
    selectedFront := selectedFront
    selectedBack := selectedBack
    polygonEdges := polygonEdges }

/-- The full preview pipeline for the setback numbers: unnamed/part_001
reads the DOM inputs and emits the event payload; the handler in
site-boundary-manager.js then builds the classifications from that
payload. -/
def previewPipelineClassifications (domFront domBack domSide : Option K)
    (selectedFront selectedBack : Option (Edge K)) (polygonEdges : List (Edge K)) :
    List (EdgeClassificationEntry K) :=
  buildEdgeClassifications
    (previewPipelineData domFront domBack domSide selectedFront selectedBack polygonEdges)

/-! ### Footprint drawing (unnamed/part_002, FloorplanManager) -/

/-- Embedding of `addDrawingPoint` (unnamed/part_002, lines 817-823): the
clicked point is pushed onto `state.drawingPoints` unconditionally (the
remaining statements only update the display). -/
def addDrawingPoint (drawingPoints : List (K × K)) (p : K × K) : List (K × K) :=
  drawingPoints ++ [p]

/-- Embedding of `pointInPolygon` (unnamed/part_002, lines 892-906): the
even-odd ray-casting loop `for (i = 0, j = len - 1; i < len; j = i++)`,
toggling `inside` when the edge straddles the horizontal through the point
and the point is left of the crossing. -/
def pointInPolygon (point : K × K) (polygon : List (K × K)) : Bool :=
  (List.range polygon.length).foldl
    (fun inside i =>
      let j := if i = 0 then polygon.length - 1 else i - 1
      let pi := polygon.getD i (0, 0)
      let pj := polygon.getD j (0, 0)
      if ((point.2 < pi.2) ≠ (point.2 < pj.2)) ∧
          point.1 < (pj.1 - pi.1) * (point.2 - pi.2) / (pj.2 - pi.2) + pi.1 then
        !inside
      else inside)
    false

/-- Embedding of `isPointWithinSiteBoundary` (unnamed/part_002,
lines 877-887): with no site data the check is vacuously true; otherwise
the boundary coordinates are tested with `pointInPolygon`. -/
def isPointWithinSiteBoundary (siteCoordinates : Option (List (K × K))) (p : K × K) :
    Bool :=
  match siteCoordinates with
  | none => true
  | some polygon => pointInPolygon p polygon

/-- Embedding of the FloorplanManager `handleMapClick` (unnamed/part_002,
lines 709-721): ignored unless drawing; a click outside the site boundary
is rejected with only an informational notice; otherwise the point is
added via `addDrawingPoint`. -/
def handleMapClickFootprint (isDrawing : Bool) (siteCoordinates : Option (List (K × K)))
    (drawingPoints : List (K × K)) (p : K × K) : List (K × K) :=
  if !isDrawing then drawingPoints
  else if !isPointWithinSiteBoundary siteCoordinates p then drawingPoints
  else addDrawingPoint drawingPoints p

/-- Embedding of the geometry part of `finishDrawing` (unnamed/part_002,
lines 828-872): fewer than 3 accumulated points aborts; otherwise the
point list is closed by appending the first point unless the first and
last points are already coordinate-equal, and the closed ring is stored as
`state.geojsonPolygon`. -/
def finishDrawing (drawingPoints : List (K × K)) : Option (List (K × K)) :=
  if drawingPoints.length < 3 then none
  else
    let firstPoint := drawingPoints.getD 0 (0, 0)
    let lastPoint := drawingPoints.getD (drawingPoints.length - 1) (0, 0)
    some (if firstPoint = lastPoint then drawingPoints else drawingPoints ++ [firstPoint])

/-- Embedding of `translatePolygon` (unnamed/part_002, lines 1820-1826):
maps every ring coordinate by the translation. -/
def translatePolygon (deltaLng deltaLat : K) (coords : List (K × K)) : List (K × K) :=
  coords.map fun c => (c.1 + deltaLng, c.2 + deltaLat)

/-- Embedding of `rotatePolygon` (unnamed/part_002, lines 1828-1844):
rotates every ring coordinate about the interaction rotation center by
`rotationDelta` radians using `Math.cos`/`Math.sin`. -/
noncomputable def rotatePolygon (center : ℝ × ℝ) (rotationDelta : ℝ)
    (coords : List (ℝ × ℝ)) : List (ℝ × ℝ) :=
  coords.map fun c =>
    let x := c.1 - center.1
    let y := c.2 - center.2
    (x * Real.cos rotationDelta - y * Real.sin rotationDelta + center.1,
      x * Real.sin rotationDelta + y * Real.cos rotationDelta + center.2)

/-- Embedding of `scalePolygon` (unnamed/part_002, lines 1846-1859):
scales every ring coordinate about the interaction rotation center. -/
def scalePolygon (center : K × K) (scaleFactor : K) (coords : List (K × K)) :
    List (K × K) :=
  coords.map fun c =>
    ((c.1 - center.1) * scaleFactor + center.1, (c.2 - center.2) * scaleFactor + center.2)

/-- A ring is closed when its first and last points are coordinate-equal
(vacuously true for the empty list, so closure statements are paired with
non-emptiness). -/
def ringClosed (l : List (K × K)) : Prop := l.head? = l.getLast?

/-! ### Preview recompute cancellation (site-boundary-manager.js,
`handleBuildableAreaPreview`, lines 1832-1925) -/

/-- State of the preview request stream.  `nextId` numbers the requests in
issue order, `current` is the id of the controller stored in
`this.previewAbortController`, `aborted` collects the ids whose
`AbortController` has been aborted, and `displayed` records which request
last ran `updateBuildableAreaDisplay`. -/
structure PreviewState where
  nextId : ℕ
  current : Option ℕ
  aborted : List ℕ
  displayed : Option ℕ
deriving DecidableEq

/-- Events of the preview stream: issuing a new preview recompute, and the
fetch of request `k` resolving successfully with usable coordinates. -/
inductive PreviewEvent where
  | issue : PreviewEvent
  | resolve : ℕ → PreviewEvent
deriving DecidableEq

/-- One step of the preview model, from `handleBuildableAreaPreview`
(site-boundary-manager.js, lines 1890-1916).  On `issue` the handler
aborts the previous `previewAbortController` (when present) and installs a
fresh one whose signal is attached to the new fetch.  On `resolve k` the
response of request `k` is applied to the display; per the fetch/abort
contract a fetch whose signal was aborted rejects with `AbortError`
instead of resolving, and the catch block swallows it, so a resolution is
applied only when `k` was issued and never aborted. -/
def previewStep (st : PreviewState) (e : PreviewEvent) : PreviewState :=
  match e with
  | .issue =>
    { nextId := st.nextId + 1
      current := some st.nextId
      aborted :=
        match st.current with
        | some c => c :: st.aborted
        | none => st.aborted
      displayed := st.displayed }
  | .resolve k =>
    if k < st.nextId ∧ k ∉ st.aborted then { st with displayed := some k } else st

/-- Initial preview state: no request issued, nothing displayed. -/
def previewInit : PreviewState := ⟨0, none, [], none⟩

/-- Runs a trace of preview events from the initial state. -/
def runPreview (trace : List PreviewEvent) : PreviewState :=
  trace.foldl previewStep previewInit

/-! ### Snapshot parsing fallback (site-boundary-manager.js lines 617-629,
unnamed/part_001 lines 66-78) -/

/-- The single-quote sanitisation `snapshot_data.replace(/'/g, '"')`:
every apostrophe character (code 39) is replaced by a double quote
(code 34). -/
def replaceSingleQuotes (s : String) : String :=
  String.mk (s.data.map fun c => if c = Char.ofNat 39 then Char.ofNat 34 else c)

/-- Embedding of the snapshot-parsing control flow shared by
`loadExistingSiteBoundary` (site-boundary-manager.js, lines 617-629) and
`loadExistingBuildableArea` (unnamed/part_001, lines 66-78): try
`JSON.parse` on the raw payload; on failure retry on the
single-quote-sanitised payload; if that also fails the caller logs and
returns without loading.  The external `JSON.parse` builtin is the
parameter `parse`, with `none` modelling a parse exception. -/
def parseSnapshotData {J : Type} (parse : String → Option J) (raw : String) : Option J :=
  match parse raw with
  | some v => some v
  | none => parse (replaceSingleQuotes raw)

/-- A concrete stand-in for `JSON.parse` used to exercise
`parseSnapshotData` on a closed input: it accepts exactly the
double-quote-delimited payload. -/
def demoParse (s : String) : Option ℕ :=
  if s = "\"a\"" then some 1 else none

/-- The same payload delimited with single quotes, as in a
single-quote-encoded persisted snapshot. -/
def demoSingleQuoted : String :=
  String.singleton (Char.ofNat 39) ++ "a" ++ String.singleton (Char.ofNat 39)

/-! ### Closed-ring helper used to state the ring-invariance properties -/

/-- Closes a vertex list by appending its first vertex (the identity on
the empty list).  `closeRing v` is the explicitly closed ring whose
distinct-vertex part is `v`. -/
def closeRing (v : List (K × K)) : List (K × K) := v ++ v.take 1

/-- Cyclic pairwise sum over a vertex list: the sum of `f` over the pairs
of cyclically consecutive vertices.  Both the shoelace loop and the
perimeter loop of a closed ring reduce to this form. -/
def cyclicSum {M : Type} [AddCommMonoid M] (f : (K × K) → (K × K) → M)
    (v : List (K × K)) : M :=
  ∑ i ∈ Finset.range v.length, f (v.getD i (0, 0)) (v.getD ((i + 1) % v.length) (0, 0))

/-- The shoelace summand `x_i * y_j - x_j * y_i`. -/
def crossTerm (a b : K × K) : K := a.1 * b.2 - b.1 * a.2

/-- The haversine distance as a function of coordinate pairs. -/
noncomputable def distPair (a b : ℝ × ℝ) : ℝ := calculateDistance a.1 a.2 b.1 b.2

/-- Placeholder edge used as the `getD` fallback in statements. -/
def dummyEdge : Edge K := ⟨0, (0, 0), (0, 0), (0, 0)⟩

/-- Concrete edge (index 0) used in closed witness statements. -/
def demoEdgeA : Edge ℚ := ⟨0, (0, 0), (2, 0), (1, 0)⟩

/-- Concrete edge (index 1) used in closed witness statements. -/
def demoEdgeB : Edge ℚ := ⟨1, (2, 0), (2, 2), (2, 1)⟩

/-- Invariant of the edge-selection state preserved by every resolved
click: a set back edge implies a set front edge, and whenever both are set
their indices differ. -/
def edgeSelInv (st : EdgeSelState K) : Prop :=
  (st.selected.front = none → st.selected.back = none) ∧
  ∀ f b, st.selected.front = some f → st.selected.back = some b → f.index ≠ b.index

/-! ## Theorems -/

/-- Indexing a mapped range list. -/
theorem map_range_getD {α : Type} (f : ℕ → α) (n i : ℕ) (d : α) (h : i < n) :
    ((List.range n).map f).getD i d = f i := by
  rw [List.getD_eq_getElem?_getD]
  simp [List.getElem?_map, List.getElem?_range h]

/-- Explicit description of the edge produced at index `i`. -/
theorem calculatePolygonEdges_getD (coords : List (ℚ × ℚ)) (h3 : 3 ≤ coords.length)
    (i : ℕ) (hi : i < (dedupedRing coords).length) :
    (calculatePolygonEdges (some coords)).getD i dummyEdge =
      Edge.mk i ((dedupedRing coords).getD i (0, 0))
        ((dedupedRing coords).getD ((i + 1) % (dedupedRing coords).length) (0, 0))
        ((((dedupedRing coords).getD i (0, 0)).1 +
            ((dedupedRing coords).getD ((i + 1) % (dedupedRing coords).length) (0, 0)).1) / 2,
          (((dedupedRing coords).getD i (0, 0)).2 +
            ((dedupedRing coords).getD ((i + 1) % (dedupedRing coords).length) (0, 0)).2) / 2)
    := by
  have hguard : ¬ coords.length < 3 := by omega
  simp only [calculatePolygonEdges, if_neg hguard]
  rw [map_range_getD _ _ _ _ hi]

/-- Length of the produced edge list. -/
theorem calculatePolygonEdges_length (coords : List (ℚ × ℚ)) (h3 : 3 ≤ coords.length) :
    (calculatePolygonEdges (some coords)).length = (dedupedRing coords).length := by
  have hguard : ¬ coords.length < 3 := by omega
  simp [calculatePolygonEdges, hguard]

/-- C1: for every coordinate ring with at least 3 vertices — in particular
for every ring with at least 3 distinct vertices supplied open or with an
explicit closing point — `calculatePolygonEdges` returns exactly one edge
per vertex of the de-duplicated ring, the indices `0..n-1` are contiguous
and in order, and the end point of edge `i` equals the start point of edge
`(i+1) mod n`. -/
theorem spec_C1 (coords : List (ℚ × ℚ)) (h3 : 3 ≤ coords.length) :
    (calculatePolygonEdges (some coords)).length = (dedupedRing coords).length ∧
    (∀ i, i < (calculatePolygonEdges (some coords)).length →
      ((calculatePolygonEdges (some coords)).getD i dummyEdge).index = i) ∧
    (∀ i, i < (calculatePolygonEdges (some coords)).length →
      ((calculatePolygonEdges (some coords)).getD i dummyEdge).endPoint =
        ((calculatePolygonEdges (some coords)).getD
          ((i + 1) % (calculatePolygonEdges (some coords)).length) dummyEdge).start) := by
  have hlen := calculatePolygonEdges_length coords h3
  refine ⟨hlen, ?_, ?_⟩
  · intro i hi
    rw [hlen] at hi
    rw [calculatePolygonEdges_getD coords h3 i hi]
  · intro i hi
    rw [hlen] at hi
    have hn : 0 < (dedupedRing coords).length := by omega
    have hmod : (i + 1) % (dedupedRing coords).length < (dedupedRing coords).length :=
      Nat.mod_lt _ hn
    rw [hlen, calculatePolygonEdges_getD coords h3 i hi,
      calculatePolygonEdges_getD coords h3 _ hmod]

/-- Witness for C1 at a concrete explicitly closed square ring. -/
theorem spec_C1_witness :
    (calculatePolygonEdges (some [((0 : ℚ), (0 : ℚ)), (4, 0), (4, 3), (0, 0)])).length =
      (dedupedRing [((0 : ℚ), (0 : ℚ)), (4, 0), (4, 3), (0, 0)]).length ∧
    ((calculatePolygonEdges (some [((0 : ℚ), (0 : ℚ)), (4, 0), (4, 3), (0, 0)])).getD 2
        dummyEdge).endPoint =
      ((calculatePolygonEdges (some [((0 : ℚ), (0 : ℚ)), (4, 0), (4, 3), (0, 0)])).getD 0
        dummyEdge).start :=
  ⟨(spec_C1 _ (by decide)).1, (spec_C1 _ (by decide)).2.2 2 (by decide)⟩

/-- C8: a null coordinates argument, or one with fewer than 3 points,
makes `calculatePolygonArea`, `calculatePolygonPerimeter` and the shoelace
fallback all return 0 (the guard runs before any computation, so nothing
can throw). -/
theorem spec_C8 (turfArea : List (ℝ × ℝ) → Option ℝ)
    (coordinates : Option (List (ℝ × ℝ)))
    (h : coordinates = none ∨ ∃ c, coordinates = some c ∧ c.length < 3) :
    calculatePolygonArea turfArea coordinates = 0 ∧
    calculatePolygonPerimeter coordinates = 0 ∧
    calculatePolygonAreaFallback coordinates = 0 := by
  rcases h with rfl | ⟨c, rfl, hc⟩
  · exact ⟨rfl, rfl, rfl⟩
  · exact ⟨by simp [calculatePolygonArea, hc], by simp [calculatePolygonPerimeter, hc],
      by simp [calculatePolygonAreaFallback, hc]⟩

/-- Witness for C8 at a two-point list. -/
theorem spec_C8_witness :
    calculatePolygonArea (fun _ => none) (some [((0 : ℝ), (0 : ℝ)), (1, 1)]) = 0 ∧
    calculatePolygonPerimeter (some [((0 : ℝ), (0 : ℝ)), (1, 1)]) = 0 ∧
    calculatePolygonAreaFallback (some [((0 : ℝ), (0 : ℝ)), (1, 1)]) = 0 :=
  spec_C8 _ _ (Or.inr ⟨_, rfl, by decide⟩)

/-- One resolved click preserves the edge-selection invariant. -/
theorem edgeSelInv_step (st : EdgeSelState K) (sel : Option (Edge K))
    (h : edgeSelInv st) : edgeSelInv (handleEdgeSelectionResolved st sel) := by
  unfold handleEdgeSelectionResolved
  split
  · exact h
  · split
    · exact h
    · rename_i e
      split
      · rename_i hfront
        refine ⟨fun hf => Option.noConfusion hf, fun f2 b hf2 hb => ?_⟩
        exact Option.noConfusion ((h.1 hfront).symm.trans hb)
      · rename_i f hfront
        split
        · rename_i hcond
          refine ⟨fun hf => Option.noConfusion hf, fun f2 b hf2 hb => ?_⟩
          obtain rfl : f = f2 := Option.some.inj hf2
          obtain rfl : e = b := Option.some.inj hb
          exact fun hh => hcond.2 hh.symm
        · exact h

/-- Folding any sequence of resolved clicks preserves the invariant. -/
theorem edgeSelInv_foldl (sels : List (Option (Edge K))) (st : EdgeSelState K)
    (h : edgeSelInv st) :
    edgeSelInv (sels.foldl handleEdgeSelectionResolved st) := by
  induction sels generalizing st with
  | nil => exact h
  | cons s rest ih => exact ih _ (edgeSelInv_step st s h)

/-- C2: in edge-selection mode, the first resolved edge is stored as the
front edge; a later click resolving to the front index is a no-op and
never sets the back edge; a click resolving to a distinct index sets the
back edge and clears the selection-mode flag; and after any sequence of
resolved clicks from the initial selection state, a set front and back
always have distinct indices. -/
theorem spec_C2 :
    (∀ (st : EdgeSelState ℚ) (e : Edge ℚ), st.isEdgeSelectionMode = true →
      st.selected.front = none →
      handleEdgeSelectionResolved st (some e) = ⟨true, ⟨some e, st.selected.back⟩⟩) ∧
    (∀ (st : EdgeSelState ℚ) (e f : Edge ℚ), st.selected.front = some f →
      e.index = f.index → handleEdgeSelectionResolved st (some e) = st) ∧
    (∀ (st : EdgeSelState ℚ) (e f : Edge ℚ), st.isEdgeSelectionMode = true →
      st.selected.front = some f → st.selected.back = none → e.index ≠ f.index →
      handleEdgeSelectionResolved st (some e) = ⟨false, ⟨some f, some e⟩⟩) ∧
    (∀ (sels : List (Option (Edge ℚ))) (f b : Edge ℚ),
      (sels.foldl handleEdgeSelectionResolved initialEdgeSelState).selected.front = some f →
      (sels.foldl handleEdgeSelectionResolved initialEdgeSelState).selected.back = some b →
      f.index ≠ b.index) := by
  refine ⟨?_, ?_, ?_, ?_⟩
  · intro st e hmode hfront
    obtain ⟨m, fr, bk⟩ := st
    simp only at hmode hfront
    subst hmode
    subst hfront
    rfl
  · intro st e f hfront heq
    obtain ⟨m, fr, bk⟩ := st
    simp only at hfront
    subst hfront
    cases m
    · rfl
    · simp [handleEdgeSelectionResolved, heq]
  · intro st e f hmode hfront hback hne
    obtain ⟨m, fr, bk⟩ := st
    simp only at hmode hfront hback
    subst hmode
    subst hfront
    subst hback
    simp [handleEdgeSelectionResolved, hne]
  · intro sels f b hf hb
    have hinit : edgeSelInv (initialEdgeSelState (K := ℚ)) :=
      ⟨fun _ => rfl, fun f2 b2 hf2 => Option.noConfusion hf2⟩
    exact (edgeSelInv_foldl sels _ hinit).2 f b hf hb

/-- Witness for C2 on two concrete edges with indices 0 and 1. -/
theorem spec_C2_witness :
    handleEdgeSelectionResolved initialEdgeSelState (some demoEdgeA) =
      ⟨true, ⟨some demoEdgeA, none⟩⟩ ∧
    handleEdgeSelectionResolved (⟨true, ⟨some demoEdgeA, none⟩⟩ : EdgeSelState ℚ)
        (some demoEdgeA) = ⟨true, ⟨some demoEdgeA, none⟩⟩ ∧
    handleEdgeSelectionResolved (⟨true, ⟨some demoEdgeA, none⟩⟩ : EdgeSelState ℚ)
        (some demoEdgeB) = ⟨false, ⟨some demoEdgeA, some demoEdgeB⟩⟩ ∧
    demoEdgeA.index ≠ demoEdgeB.index := by
  refine ⟨?_, ?_, ?_, ?_⟩
  · exact spec_C2.1 initialEdgeSelState demoEdgeA rfl rfl
  · exact spec_C2.2.1 _ demoEdgeA demoEdgeA rfl rfl
  · exact spec_C2.2.2.1 _ demoEdgeB demoEdgeA rfl rfl rfl (by decide)
  · exact spec_C2.2.2.2 [some demoEdgeA, some demoEdgeB] demoEdgeA demoEdgeB
      (by decide) (by decide)

/-- Field projections of a resolve step: only `displayed` can change. -/
theorem previewStep_resolve_fields (st : PreviewState) (j : ℕ) :
    (previewStep st (PreviewEvent.resolve j)).nextId = st.nextId ∧
    (previewStep st (PreviewEvent.resolve j)).current = st.current ∧
    (previewStep st (PreviewEvent.resolve j)).aborted = st.aborted := by
  simp only [previewStep]
  split <;> exact ⟨rfl, rfl, rfl⟩

/-- One preview event preserves the abort invariant: every issued request
other than the current one has been aborted. -/
theorem previewInv_step (st : PreviewState) (e : PreviewEvent)
    (h : ∀ k, k < st.nextId → st.current ≠ some k → k ∈ st.aborted) :
    ∀ k, k < (previewStep st e).nextId →
      (previewStep st e).current ≠ some k → k ∈ (previewStep st e).aborted := by
  intro k hk hne
  cases e with
  | issue =>
    simp only [previewStep] at hk hne ⊢
    rcases Nat.lt_succ_iff_lt_or_eq.mp hk with hk2 | rfl
    · rcases hcur : st.current with _ | c
      · exact h k hk2 (by simp [hcur])
      · by_cases hkc : c = k
        · subst hkc
          exact List.mem_cons_self _ _
        · exact List.mem_cons_of_mem _ (h k hk2 (by simp [hcur, hkc]))
    · exact absurd rfl hne
  | resolve j =>
    obtain ⟨h1, h2, h3⟩ := previewStep_resolve_fields st j
    rw [h1] at hk
    rw [h2] at hne
    rw [h3]
    exact h k hk hne

/-- The abort invariant holds along every trace from the initial state. -/
theorem previewInv_run (trace : List PreviewEvent) :
    ∀ k, k < (runPreview trace).nextId → (runPreview trace).current ≠ some k →
      k ∈ (runPreview trace).aborted := by
  suffices h : ∀ (tr : List PreviewEvent) (st : PreviewState),
      (∀ k, k < st.nextId → st.current ≠ some k → k ∈ st.aborted) →
      ∀ k, k < (tr.foldl previewStep st).nextId →
        (tr.foldl previewStep st).current ≠ some k →
        k ∈ (tr.foldl previewStep st).aborted by
    exact h trace previewInit (fun k hk _ => absurd hk (Nat.not_lt_zero k))
  intro tr
  induction tr with
  | nil => exact fun st h => h
  | cons e rest ih => exact fun st h => ih _ (previewInv_step st e h)

/-- C3: issuing a new preview recompute aborts the previous in-flight
request; along every event trace, every issued request other than the
newest is aborted (so at most the newest is in flight); and a resolve
event can change the displayed state only when it belongs to the newest
issued request, so a superseded (aborted) resolution is never applied. -/
theorem spec_C3 :
    (∀ (st : PreviewState) (c : ℕ), st.current = some c →
      c ∈ (previewStep st PreviewEvent.issue).aborted) ∧
    (∀ (trace : List PreviewEvent) (k : ℕ), k < (runPreview trace).nextId →
      (runPreview trace).current ≠ some k → k ∈ (runPreview trace).aborted) ∧
    (∀ (trace : List PreviewEvent) (k : ℕ),
      (previewStep (runPreview trace) (PreviewEvent.resolve k)).displayed ≠
        (runPreview trace).displayed →
      (runPreview trace).current = some k) := by
  refine ⟨?_, previewInv_run, ?_⟩
  · intro st c hcur
    simp only [previewStep]
    rw [hcur]
    exact List.mem_cons_self _ _
  · intro trace k hdisp
    by_cases hcond : k < (runPreview trace).nextId ∧ k ∉ (runPreview trace).aborted
    · by_cases hcur : (runPreview trace).current = some k
      · exact hcur
      · exact absurd (previewInv_run trace k hcond.1 hcur) hcond.2
    · exact absurd (by simp [previewStep, hcond]) hdisp

/-- Witness for C3: two issues abort the first request; a resolve of the
only issued request changes the display, and the theorem recovers that it
was the current request. -/
theorem spec_C3_witness :
    (0 : ℕ) ∈ (previewStep ⟨1, some 0, [], none⟩ PreviewEvent.issue).aborted ∧
    (0 : ℕ) ∈ (runPreview [PreviewEvent.issue, PreviewEvent.issue]).aborted ∧
    (runPreview [PreviewEvent.issue]).current = some 0 :=
  ⟨spec_C3.1 _ 0 rfl,
    spec_C3.2.1 [PreviewEvent.issue, PreviewEvent.issue] 0 (by decide) (by decide),
    spec_C3.2.2 [PreviewEvent.issue] 0 (by decide)⟩

/-- C5: when standard parsing of the snapshot payload fails, the loader
retries on the payload with every single quote replaced by a double
quote — so a single-quote-delimited variant accepted by the parser after
sanitisation still loads — and only when that fallback also fails is the
payload treated as unparsable. -/
theorem spec_C5 {J : Type} (parse : String → Option J) (raw : String) :
    (∀ v, parse raw = some v → parseSnapshotData parse raw = some v) ∧
    (parse raw = none →
      parseSnapshotData parse raw = parse (replaceSingleQuotes raw)) ∧
    (∀ v, parse raw = none → parse (replaceSingleQuotes raw) = some v →
      parseSnapshotData parse raw = some v) ∧
    (parse raw = none → parse (replaceSingleQuotes raw) = none →
      parseSnapshotData parse raw = none) := by
  refine ⟨?_, ?_, ?_, ?_⟩
  · intro v h
    simp [parseSnapshotData, h]
  · intro h
    simp [parseSnapshotData, h]
  · intro v h h2
    simp [parseSnapshotData, h, h2]
  · intro h h2
    simp [parseSnapshotData, h, h2]

/-- Witness for C5: a single-quote-delimited payload is rejected by the
parser as-is but loads through the sanitisation fallback. -/
theorem spec_C5_witness :
    demoParse demoSingleQuoted = none ∧
    parseSnapshotData demoParse demoSingleQuoted = some 1 :=
  ⟨by decide, (spec_C5 demoParse demoSingleQuoted).2.2.1 1 (by decide) (by decide)⟩

/-- C6 counterexample: during footprint drawing (no boundary restriction,
so the containment check passes), a click at longitude `1e-9` — within
`1e-6` of the last accumulated point in both coordinates — is still
appended by the floorplan click handler, so it is not a no-op as the claim
states for the footprint path. -/
theorem spec_C6_counterexample :
    ([((0 : ℚ), (0 : ℚ))].getLast? = some ((0 : ℚ), (0 : ℚ)) ∧
      |(0 : ℚ) - 1 / 1000000000| < 1 / 1000000 ∧ |(0 : ℚ) - 0| < 1 / 1000000) ∧
    handleMapClickFootprint true none [((0 : ℚ), (0 : ℚ))] (1 / 1000000000, 0) ≠
      [((0 : ℚ), (0 : ℚ))] := by
  refine ⟨⟨rfl, ?_, by simp⟩, ?_⟩
  · rw [zero_sub, abs_neg, abs_of_nonneg (by norm_num : (0 : ℚ) ≤ 1 / 1000000000)]
    norm_num
  · simp [handleMapClickFootprint, isPointWithinSiteBoundary, addDrawingPoint]

/-- C6 (amended): duplicate-click suppression applies only to the boundary
drawing path: in `draw_polygon` mode a click within `1e-6` degrees of the
last accumulated point in both coordinates is a no-op and any other click
is appended, while the footprint path (`addDrawingPoint`, reached from the
floorplan click handler for any in-boundary point) appends
unconditionally. -/
theorem spec_C6_amended :
    (∀ (pts : List (ℚ × ℚ)) (lp p : ℚ × ℚ), pts.getLast? = some lp →
      |lp.1 - p.1| < 1 / 1000000 ∧ |lp.2 - p.2| < 1 / 1000000 →
      handleMapClickBoundary true pts p = pts) ∧
    (∀ (pts : List (ℚ × ℚ)) (lp p : ℚ × ℚ), pts.getLast? = some lp →
      ¬(|lp.1 - p.1| < 1 / 1000000 ∧ |lp.2 - p.2| < 1 / 1000000) →
      handleMapClickBoundary true pts p = pts ++ [p]) ∧
    (∀ (pts : List (ℚ × ℚ)) (p : ℚ × ℚ), pts.getLast? = none →
      handleMapClickBoundary true pts p = pts ++ [p]) ∧
    (∀ (pts : List (ℚ × ℚ)) (p : ℚ × ℚ), addDrawingPoint pts p = pts ++ [p]) ∧
    (∀ (siteCoords : Option (List (ℚ × ℚ))) (pts : List (ℚ × ℚ)) (p : ℚ × ℚ),
      isPointWithinSiteBoundary siteCoords p = true →
      handleMapClickFootprint true siteCoords pts p = pts ++ [p]) := by
  refine ⟨?_, ?_, ?_, fun pts p => rfl, ?_⟩
  · intro pts lp p hlast heps
    unfold handleMapClickBoundary
    rw [hlast]
    exact if_pos heps
  · intro pts lp p hlast heps
    unfold handleMapClickBoundary
    rw [hlast]
    exact if_neg heps
  · intro pts p hlast
    unfold handleMapClickBoundary
    rw [hlast]
    rfl
  · intro siteCoords pts p hin
    simp [handleMapClickFootprint, hin, addDrawingPoint]

/-- Witness for C6 (amended): the boundary path suppresses an exactly
repeated click and appends a distant click; the footprint path appends
even an exactly repeated click. -/
theorem spec_C6_witness :
    handleMapClickBoundary true [((0 : ℚ), (0 : ℚ))] (0, 0) = [((0 : ℚ), (0 : ℚ))] ∧
    handleMapClickBoundary true [((0 : ℚ), (0 : ℚ))] (1, 1) =
      [((0 : ℚ), (0 : ℚ)), (1, 1)] ∧
    addDrawingPoint [((0 : ℚ), (0 : ℚ))] (0, 0) = [((0 : ℚ), (0 : ℚ)), (0, 0)] ∧
    handleMapClickFootprint true none [((0 : ℚ), (0 : ℚ))] (0, 0) =
      [((0 : ℚ), (0 : ℚ)), (0, 0)] :=
  ⟨spec_C6_amended.1 _ (0, 0) _ rfl (by simp),
    spec_C6_amended.2.1 _ (0, 0) _ rfl (by norm_num),
    spec_C6_amended.2.2.2.1 _ _,
    spec_C6_amended.2.2.2.2 none _ _ rfl⟩

/-- C7: during footprint drawing with a site boundary present, a clicked
point outside the boundary (per the even-odd ray-casting test) is
rejected without error — the drawing point list is unchanged — while a
point inside the boundary is appended. -/
theorem spec_C7 (siteCoords : List (ℚ × ℚ)) (drawingPoints : List (ℚ × ℚ))
    (p : ℚ × ℚ) :
    (pointInPolygon p siteCoords = false →
      handleMapClickFootprint true (some siteCoords) drawingPoints p = drawingPoints) ∧
    (pointInPolygon p siteCoords = true →
      handleMapClickFootprint true (some siteCoords) drawingPoints p =
        drawingPoints ++ [p]) := by
  constructor <;> intro h <;>
    simp [handleMapClickFootprint, isPointWithinSiteBoundary, h, addDrawingPoint]

/-- Witness for C7 on a concrete square boundary: an outside point is
dropped, an inside point is appended. -/
theorem spec_C7_witness :
    pointInPolygon ((20 : ℚ), (5 : ℚ)) [(0, 0), (10, 0), (10, 10), (0, 10)] = false ∧
    handleMapClickFootprint true (some [((0 : ℚ), (0 : ℚ)), (10, 0), (10, 10), (0, 10)])
      [(1, 1)] (20, 5) = [(1, 1)] ∧
    pointInPolygon ((5 : ℚ), (5 : ℚ)) [(0, 0), (10, 0), (10, 10), (0, 10)] = true ∧
    handleMapClickFootprint true (some [((0 : ℚ), (0 : ℚ)), (10, 0), (10, 10), (0, 10)])
      [(1, 1)] (5, 5) = [(1, 1), (5, 5)] := by
  have hout : pointInPolygon ((20 : ℚ), (5 : ℚ))
      [(0, 0), (10, 0), (10, 10), (0, 10)] = false := by
    norm_num [pointInPolygon, List.range_succ]
  have hin : pointInPolygon ((5 : ℚ), (5 : ℚ))
      [(0, 0), (10, 0), (10, 10), (0, 10)] = true := by
    norm_num [pointInPolygon, List.range_succ]
  exact ⟨hout, (spec_C7 _ [(1, 1)] _).1 hout, hin, (spec_C7 _ [(1, 1)] _).2 hin⟩

/-- Explicit description of the classification entry at index `i` when
both a front and a back edge are selected. -/
theorem buildEdgeClassifications_getD_selected (d : BuildableAreaEventData ℚ)
    (fe be : Edge ℚ) (i : ℕ) (hf : d.selectedFront = some fe)
    (hb : d.selectedBack = some be) (hi : i < d.polygonEdges.length) :
    (buildEdgeClassifications d).getD i ⟨0, "side", 0⟩ =
      (if i = fe.index then ⟨i, "front", jsNumOr d.frontSetback 0⟩
       else if i = be.index then ⟨i, "back", jsNumOr d.backSetback 0⟩
       else ⟨i, "side", jsNumOr d.sideSetback 0⟩ : EdgeClassificationEntry ℚ) := by
  unfold buildEdgeClassifications
  rw [hf, hb]
  exact map_range_getD _ _ _ _ hi

/-- With an incomplete selection every entry is a side entry. -/
theorem buildEdgeClassifications_getD_unselected (d : BuildableAreaEventData ℚ)
    (i : ℕ) (h : d.selectedFront = none ∨ d.selectedBack = none)
    (hi : i < d.polygonEdges.length) :
    (buildEdgeClassifications d).getD i ⟨0, "side", 0⟩ =
      (⟨i, "side", jsNumOr d.sideSetback 0⟩ : EdgeClassificationEntry ℚ) := by
  unfold buildEdgeClassifications
  rcases hf : d.selectedFront with _ | fe
  · rcases hb : d.selectedBack with _ | be
    · exact map_range_getD _ _ _ _ hi
    · exact map_range_getD _ _ _ _ hi
  · rcases hb : d.selectedBack with _ | be
    · exact map_range_getD _ _ _ _ hi
    · rcases h with h | h
      · exact absurd (hf.symm.trans h) (by simp)
      · exact absurd (hb.symm.trans h) (by simp)

/-- C4 counterexample: with the front setback DOM input missing (or
non-numeric), the preview pipeline classifies the selected front edge with
setback `4.5` — the part_001 default — not `0`, and the shaped request
forwards `4.5` as `front_setback`; so a missing input is not treated as 0
in the produced classifications and request. -/
theorem spec_C4_counterexample :
    ((previewPipelineClassifications (none : Option ℚ) none none (some demoEdgeA)
        (some demoEdgeB) [demoEdgeA, demoEdgeB]).getD 0 ⟨0, "side", 0⟩).setback ≠ 0 ∧
    (buildCalcRequest (previewPipelineData (none : Option ℚ) none none (some demoEdgeA)
        (some demoEdgeB) [demoEdgeA, demoEdgeB])).1.front_setback ≠ some 0 := by
  constructor
  · norm_num [previewPipelineClassifications, previewPipelineData, readSetbackInputs,
      buildEdgeClassifications, jsNumOr, demoEdgeA, demoEdgeB, List.range_succ]
  · norm_num [buildCalcRequest, previewPipelineData, readSetbackInputs, jsNumOr]

/-- C4 (amended): in the buildable-area handlers a non-numeric or missing
setback field of the received event data defaults to 0 in the produced
edge classifications, and the requirements object forwards the event
values unchanged; but the DOM setback inputs read by the part_001
preview/recalculate path default to 4.5 (front), 3.5 (back) and 1.5
(side) when missing or non-numeric, so through the full pipeline a missing
input reaches the classifications and the request as those defaults, not
as 0. -/
theorem spec_C4_amended :
    (∀ (d : BuildableAreaEventData ℚ) (fe be : Edge ℚ) (i : ℕ),
      d.selectedFront = some fe → d.selectedBack = some be →
      i < d.polygonEdges.length → d.frontSetback = none → i = fe.index →
      ((buildEdgeClassifications d).getD i ⟨0, "side", 0⟩).setback = 0) ∧
    (∀ (d : BuildableAreaEventData ℚ) (i : ℕ),
      (d.selectedFront = none ∨ d.selectedBack = none) →
      i < d.polygonEdges.length → d.sideSetback = none →
      ((buildEdgeClassifications d).getD i ⟨0, "side", 0⟩).setback = 0) ∧
    (∀ d : BuildableAreaEventData ℚ,
      (buildCalcRequest d).1 = ⟨d.frontSetback, d.sideSetback, d.backSetback⟩) ∧
    (readSetbackInputs (none : Option ℚ) none none = (9 / 2, 7 / 2, 3 / 2)) ∧
    (∀ (fe be : Edge ℚ) (edges : List (Edge ℚ)) (i : ℕ), i < edges.length →
      (previewPipelineClassifications none none none (some fe) (some be)
          edges).getD i ⟨0, "side", 0⟩ =
        (if i = fe.index then ⟨i, "front", 9 / 2⟩
         else if i = be.index then ⟨i, "back", 7 / 2⟩
         else ⟨i, "side", 3 / 2⟩ : EdgeClassificationEntry ℚ)) := by
  refine ⟨?_, ?_, fun d => rfl, rfl, ?_⟩
  · intro d fe be i hf hb hi hnone hidx
    rw [buildEdgeClassifications_getD_selected d fe be i hf hb hi, if_pos hidx]
    simp [jsNumOr, hnone]
  · intro d i h hi hnone
    rw [buildEdgeClassifications_getD_unselected d i h hi]
    simp [jsNumOr, hnone]
  · intro fe be edges i hi
    unfold previewPipelineClassifications
    rw [buildEdgeClassifications_getD_selected _ fe be i rfl rfl hi]
    have h1 : jsNumOr (some (9 / 2 : ℚ)) 0 = 9 / 2 := by norm_num [jsNumOr]
    have h2 : jsNumOr (some (7 / 2 : ℚ)) 0 = 7 / 2 := by norm_num [jsNumOr]
    have h3 : jsNumOr (some (3 / 2 : ℚ)) 0 = 3 / 2 := by norm_num [jsNumOr]
    split_ifs <;> simp [previewPipelineData, readSetbackInputs, jsNumOr]

/-- Witness for C4 (amended) on concrete edges: a missing event-level front
setback yields classification setback 0; missing DOM inputs yield the
part_001 defaults through the pipeline. -/
theorem spec_C4_witness :
    ((buildEdgeClassifications
        { frontSetback := (none : Option ℚ), backSetback := some 1, sideSetback := some 1
          selectedFront := some demoEdgeA, selectedBack := some demoEdgeB
          polygonEdges := [demoEdgeA, demoEdgeB] }).getD 0 ⟨0, "side", 0⟩).setback = 0 ∧
    readSetbackInputs (none : Option ℚ) none none = (9 / 2, 7 / 2, 3 / 2) ∧
    (previewPipelineClassifications (none : Option ℚ) none none (some demoEdgeA)
        (some demoEdgeB) [demoEdgeA, demoEdgeB]).getD 0 ⟨0, "side", 0⟩ =
      (⟨0, "front", 9 / 2⟩ : EdgeClassificationEntry ℚ) :=
  ⟨spec_C4_amended.1 _ demoEdgeA demoEdgeB 0 rfl rfl (by decide) rfl rfl,
    spec_C4_amended.2.2.2.1,
    spec_C4_amended.2.2.2.2 demoEdgeA demoEdgeB [demoEdgeA, demoEdgeB] 0 (by decide)⟩

/-- The head of a nonempty list via `getD`. -/
theorem head?_getD {α : Type} (l : List α) (d : α) (h : l ≠ []) :
    l.head? = some (l.getD 0 d) := by
  cases l with
  | nil => exact absurd rfl h
  | cons a t => rfl

/-- The last element of a nonempty list via `getD`. -/
theorem getLast?_getD {α : Type} (l : List α) (d : α) (h : l ≠ []) :
    l.getLast? = some (l.getD (l.length - 1) d) := by
  induction l with
  | nil => exact absurd rfl h
  | cons a t ih =>
    cases t with
    | nil => rfl
    | cons b t2 =>
      rw [List.getLast?_cons_cons, ih (by simp)]
      have hlen : (a :: b :: t2).length - 1 = ((b :: t2).length - 1) + 1 := by
        simp
      rw [hlen, List.getD_cons_succ]

/-- Mapping a function over a closed ring keeps it closed. -/
theorem ringClosed_map (f : (ℝ × ℝ) → (ℝ × ℝ)) (l : List (ℝ × ℝ))
    (h : ringClosed l) : ringClosed (l.map f) := by
  unfold ringClosed at h ⊢
  rw [List.head?_map, List.getLast?_map, h]

/-- C10: `finishDrawing` always produces a closed (and nonempty) ring, and
each of the three footprint transforms preserves both ring closure and the
vertex count, so the stored footprint ring stays closed. -/
theorem spec_C10 :
    (∀ (pts r : List (ℝ × ℝ)), finishDrawing pts = some r → ringClosed r ∧ r ≠ []) ∧
    (∀ (c : List (ℝ × ℝ)) (dLng dLat : ℝ), ringClosed c →
      ringClosed (translatePolygon dLng dLat c) ∧
      (translatePolygon dLng dLat c).length = c.length) ∧
    (∀ (c : List (ℝ × ℝ)) (center : ℝ × ℝ) (rotationDelta : ℝ), ringClosed c →
      ringClosed (rotatePolygon center rotationDelta c) ∧
      (rotatePolygon center rotationDelta c).length = c.length) ∧
    (∀ (c : List (ℝ × ℝ)) (center : ℝ × ℝ) (scaleFactor : ℝ), ringClosed c →
      ringClosed (scalePolygon center scaleFactor c) ∧
      (scalePolygon center scaleFactor c).length = c.length) := by
  refine ⟨?_, ?_, ?_, ?_⟩
  · intro pts r h
    unfold finishDrawing at h
    by_cases hlen : pts.length < 3
    · rw [if_pos hlen] at h
      exact absurd h (by simp)
    · rw [if_neg hlen] at h
      cases pts with
      | nil => simp at hlen
      | cons a t =>
        have hr := Option.some.inj h
        by_cases hfl : (a :: t).getD 0 (0, 0) = (a :: t).getD ((a :: t).length - 1) (0, 0)
        · rw [if_pos hfl] at hr
          subst hr
          refine ⟨?_, by simp⟩
          unfold ringClosed
          rw [getLast?_getD _ (0, 0) (by simp)]
          exact congrArg some hfl
        · rw [if_neg hfl] at hr
          subst hr
          refine ⟨?_, by simp⟩
          unfold ringClosed
          rw [List.getLast?_concat]
          rfl
  · intro c dLng dLat h
    exact ⟨ringClosed_map _ c h, List.length_map _ _⟩
  · intro c center rotationDelta h
    exact ⟨ringClosed_map _ c h, List.length_map _ _⟩
  · intro c center scaleFactor h
    exact ⟨ringClosed_map _ c h, List.length_map _ _⟩

/-- Witness for C10 on a concrete closed triangle ring. -/
theorem spec_C10_witness :
    (ringClosed [((0 : ℝ), (0 : ℝ)), (1, 0), (0, 1), (0, 0)] ∧
      [((0 : ℝ), (0 : ℝ)), (1, 0), (0, 1), (0, 0)] ≠ []) ∧
    (ringClosed (translatePolygon 1 2 [((0 : ℝ), (0 : ℝ)), (1, 0), (0, 1), (0, 0)]) ∧
      (translatePolygon 1 2 [((0 : ℝ), (0 : ℝ)), (1, 0), (0, 1), (0, 0)]).length =
        ([((0 : ℝ), (0 : ℝ)), (1, 0), (0, 1), (0, 0)] : List (ℝ × ℝ)).length) ∧
    (ringClosed (rotatePolygon (0, 0) 1 [((0 : ℝ), (0 : ℝ)), (1, 0), (0, 1), (0, 0)]) ∧
      (rotatePolygon (0, 0) 1 [((0 : ℝ), (0 : ℝ)), (1, 0), (0, 1), (0, 0)]).length =
        ([((0 : ℝ), (0 : ℝ)), (1, 0), (0, 1), (0, 0)] : List (ℝ × ℝ)).length) ∧
    (ringClosed (scalePolygon (0, 0) 2 [((0 : ℝ), (0 : ℝ)), (1, 0), (0, 1), (0, 0)]) ∧
      (scalePolygon (0, 0) 2 [((0 : ℝ), (0 : ℝ)), (1, 0), (0, 1), (0, 0)]).length =
        ([((0 : ℝ), (0 : ℝ)), (1, 0), (0, 1), (0, 0)] : List (ℝ × ℝ)).length) := by
  have hfin : finishDrawing [((0 : ℝ), (0 : ℝ)), (1, 0), (0, 1), (0, 0)] =
      some [((0 : ℝ), (0 : ℝ)), (1, 0), (0, 1), (0, 0)] := by
    unfold finishDrawing
    rw [if_neg (by decide)]
    exact congrArg some (if_pos rfl)
  have hclosed : ringClosed [((0 : ℝ), (0 : ℝ)), (1, 0), (0, 1), (0, 0)] :=
    (spec_C10.1 _ _ hfin).1
  exact ⟨spec_C10.1 _ _ hfin, spec_C10.2.1 _ 1 2 hclosed,
    spec_C10.2.2.1 _ (0, 0) 1 hclosed, spec_C10.2.2.2 _ (0, 0) 2 hclosed⟩

/-- Bridge from `getD` to checked indexing. -/
theorem getD_eq_getElem {α : Type} (l : List α) (d : α) {i : ℕ} (h : i < l.length) :
    l.getD i d = l[i] := by
  rw [List.getD_eq_getElem?_getD, List.getElem?_eq_getElem h]
  rfl

/-- Rotating the vertex list does not change a cyclic pairwise sum. -/
theorem cyclicSum_rotate {M : Type} [AddCommMonoid M] (f : (K × K) → (K × K) → M)
    (v : List (K × K)) (r : ℕ) (hv : v ≠ []) :
    cyclicSum f (v.rotate r) = cyclicSum f v := by
  have hk : 0 < v.length := List.length_pos.mpr hv
  unfold cyclicSum
  rw [List.length_rotate]
  refine Finset.sum_nbij' (fun a => (a + r) % v.length)
    (fun a => (a + (v.length - r % v.length)) % v.length) ?_ ?_ ?_ ?_ ?_
  · intro a _
    exact Finset.mem_range.mpr (Nat.mod_lt _ hk)
  · intro a _
    exact Finset.mem_range.mpr (Nat.mod_lt _ hk)
  · intro a ha
    have ha2 := Finset.mem_range.mp ha
    simp only []
    rw [Nat.mod_add_mod]
    have h3 : r % v.length < v.length := Nat.mod_lt _ hk
    have h4 : v.length * (r / v.length) + r % v.length = r := Nat.div_add_mod r v.length
    have h5 : a + r + (v.length - r % v.length) =
        a + v.length * (r / v.length) + v.length := by omega
    rw [h5, show a + v.length * (r / v.length) + v.length =
          a + v.length * (r / v.length + 1) by ring,
      Nat.add_mul_mod_self_left, Nat.mod_eq_of_lt ha2]
  · intro a ha
    have ha2 := Finset.mem_range.mp ha
    simp only []
    rw [Nat.mod_add_mod]
    have h3 : r % v.length < v.length := Nat.mod_lt _ hk
    have h4 : v.length * (r / v.length) + r % v.length = r := Nat.div_add_mod r v.length
    have h5 : a + (v.length - r % v.length) + r =
        a + v.length * (r / v.length) + v.length := by omega
    rw [h5, show a + v.length * (r / v.length) + v.length =
          a + v.length * (r / v.length + 1) by ring,
      Nat.add_mul_mod_self_left, Nat.mod_eq_of_lt ha2]
  · intro a ha
    have ha2 := Finset.mem_range.mp ha
    have e1 : (v.rotate r).getD a (0, 0) = v.getD ((a + r) % v.length) (0, 0) := by
      rw [getD_eq_getElem _ _ (by rw [List.length_rotate]; exact ha2),
        getD_eq_getElem _ _ (Nat.mod_lt _ hk), List.getElem_rotate]
    have hmodlt : (a + 1) % v.length < v.length := Nat.mod_lt _ hk
    have e2 : (v.rotate r).getD ((a + 1) % v.length) (0, 0) =
        v.getD (((a + 1) % v.length + r) % v.length) (0, 0) := by
      rw [getD_eq_getElem _ _ (by rw [List.length_rotate]; exact hmodlt),
        getD_eq_getElem _ _ (Nat.mod_lt _ hk), List.getElem_rotate]
    have e3 : ((a + 1) % v.length + r) % v.length = ((a + r) % v.length + 1) % v.length := by
      rw [Nat.mod_add_mod, Nat.mod_add_mod, Nat.add_right_comm]
    rw [e1, e2, e3]

/-- Indexing the head-preserving reversal of a vertex list. -/
theorem revRing_getD (a : K × K) (t : List (K × K)) (d : K × K) (i : ℕ)
    (h : i < t.length + 1) :
    (a :: t.reverse).getD i d =
      (a :: t).getD ((t.length + 1 - i) % (t.length + 1)) d := by
  cases i with
  | zero =>
    rw [Nat.sub_zero, Nat.mod_self]
    rfl
  | succ j =>
    have hj : j < t.length := by omega
    rw [List.getD_cons_succ]
    have h2 : (t.length + 1 - (j + 1)) % (t.length + 1) = t.length - j := by
      have h3 : t.length + 1 - (j + 1) = t.length - j := by omega
      rw [h3, Nat.mod_eq_of_lt (by omega)]
    rw [h2]
    obtain ⟨u, hu⟩ : ∃ u, t.length - j = u + 1 := ⟨t.length - j - 1, by omega⟩
    rw [hu, List.getD_cons_succ]
    rw [getD_eq_getElem _ _ (by rw [List.length_reverse]; exact hj),
      getD_eq_getElem _ _ (show u < t.length by omega)]
    rw [List.getElem_reverse]
    congr 1
    omega

/-- Reversing the winding of the vertex list (keeping the head vertex)
flips the argument order of a cyclic pairwise sum. -/
theorem cyclicSum_reverse {M : Type} [AddCommMonoid M] (f : (K × K) → (K × K) → M)
    (a : K × K) (t : List (K × K)) :
    cyclicSum f (a :: t.reverse) = cyclicSum (fun x y => f y x) (a :: t) := by
  unfold cyclicSum
  have hlen : (a :: t.reverse).length = t.length + 1 := by simp
  have hlen2 : (a :: t).length = t.length + 1 := by simp
  rw [hlen, hlen2]
  refine Finset.sum_nbij' (fun i => t.length - i) (fun i => t.length - i) ?_ ?_ ?_ ?_ ?_
  · intro i hi
    refine Finset.mem_range.mpr ?_
    simp only []
    omega
  · intro i hi
    refine Finset.mem_range.mpr ?_
    simp only []
    omega
  · intro i hi
    have hi2 := Finset.mem_range.mp hi
    simp only []
    omega
  · intro i hi
    have hi2 := Finset.mem_range.mp hi
    simp only []
    omega
  · intro i hi
    have hi2 := Finset.mem_range.mp hi
    have hmodlt : (i + 1) % (t.length + 1) < t.length + 1 := Nat.mod_lt _ (by omega)
    rw [revRing_getD a t _ i (by omega), revRing_getD a t _ _ hmodlt]
    simp only []
    have e1 : (t.length - i + 1) % (t.length + 1) = (t.length + 1 - i) % (t.length + 1) := by
      congr 1
      omega
    have e2 : (t.length + 1 - (i + 1) % (t.length + 1)) % (t.length + 1) =
        t.length - i := by
      by_cases hc : i + 1 < t.length + 1
      · rw [Nat.mod_eq_of_lt hc]
        have h4 : t.length + 1 - (i + 1) = t.length - i := by omega
        rw [h4, Nat.mod_eq_of_lt (by omega)]
      · have hieq : i + 1 = t.length + 1 := by omega
        rw [hieq, Nat.mod_self, Nat.sub_zero, Nat.mod_self]
        omega
    rw [e1, e2]

/-- Flipping the arguments of the shoelace summand negates a cyclic sum. -/
theorem cyclicSum_flip_cross (v : List (K × K)) :
    cyclicSum (fun x y => crossTerm y x) v = -cyclicSum crossTerm v := by
  unfold cyclicSum crossTerm
  rw [← Finset.sum_neg_distrib]
  refine Finset.sum_congr rfl fun i _ => ?_
  ring

/-- A symmetric summand is unchanged by flipping its arguments. -/
theorem cyclicSum_flip_symm {M : Type} [AddCommMonoid M]
    (f : (K × K) → (K × K) → M) (hf : ∀ x y, f x y = f y x) (v : List (K × K)) :
    cyclicSum (fun x y => f y x) v = cyclicSum f v := by
  unfold cyclicSum
  exact Finset.sum_congr rfl fun i _ => (hf _ _).symm

/-- The haversine distance is symmetric in its two endpoints. -/
theorem calculateDistance_symm (lon1 lat1 lon2 lat2 : ℝ) :
    calculateDistance lon1 lat1 lon2 lat2 = calculateDistance lon2 lat2 lon1 lat1 := by
  simp only [calculateDistance]
  have key : Real.sin ((lat1 - lat2) * Real.pi / 180 / 2) *
        Real.sin ((lat1 - lat2) * Real.pi / 180 / 2) +
        Real.cos (lat2 * Real.pi / 180) * Real.cos (lat1 * Real.pi / 180) *
        Real.sin ((lon1 - lon2) * Real.pi / 180 / 2) *
        Real.sin ((lon1 - lon2) * Real.pi / 180 / 2) =
      Real.sin ((lat2 - lat1) * Real.pi / 180 / 2) *
        Real.sin ((lat2 - lat1) * Real.pi / 180 / 2) +
        Real.cos (lat1 * Real.pi / 180) * Real.cos (lat2 * Real.pi / 180) *
        Real.sin ((lon2 - lon1) * Real.pi / 180 / 2) *
        Real.sin ((lon2 - lon1) * Real.pi / 180 / 2) := by
    rw [show (lat1 - lat2) * Real.pi / 180 = -((lat2 - lat1) * Real.pi / 180) by ring,
      show (lon1 - lon2) * Real.pi / 180 = -((lon2 - lon1) * Real.pi / 180) by ring,
      neg_div, neg_div, Real.sin_neg, Real.sin_neg]
    ring
  rw [key]

/-- The pairwise haversine distance is symmetric. -/
theorem distPair_symm (x y : ℝ × ℝ) : distPair x y = distPair y x :=
  calculateDistance_symm x.1 x.2 y.1 y.2

/-- Dropping the last element does not change earlier entries. -/
theorem getD_dropLast {α : Type} (l : List α) (d : α) (i : ℕ) (h : i < l.length - 1) :
    l.dropLast.getD i d = l.getD i d := by
  rw [getD_eq_getElem _ _ (show i < l.dropLast.length by rw [List.length_dropLast]; exact h),
    getD_eq_getElem _ _ (show i < l.length by omega)]
  exact List.getElem_dropLast l i _

/-- Indexing the left part of an append via `getD`. -/
theorem getD_append_lt {α : Type} (l₁ l₂ : List α) (d : α) (i : ℕ) (h : i < l₁.length) :
    (l₁ ++ l₂).getD i d = l₁.getD i d := by
  rw [getD_eq_getElem _ _ (show i < (l₁ ++ l₂).length by rw [List.length_append]; omega),
    getD_eq_getElem _ _ h]
  exact List.getElem_append_left h

/-- Indexing the appended closing point via `getD`. -/
theorem getD_append_len {α : Type} (l : List α) (x d : α) :
    (l ++ [x]).getD l.length d = x := by
  rw [getD_eq_getElem _ _ (show l.length < (l ++ [x]).length by simp)]
  exact List.getElem_concat_length l x _ rfl _

/-- The shoelace fallback is the absolute cyclic cross sum of the ring
without its final point, halved. -/
theorem areaFallback_eq_cyclicSum (c : List (K × K)) (h : 3 ≤ c.length) :
    calculatePolygonAreaFallback (some c) = |cyclicSum crossTerm c.dropLast| / 2 := by
  simp only [calculatePolygonAreaFallback, cyclicSum, crossTerm]
  rw [if_neg (by omega), List.length_dropLast]
  refine congrArg (fun x => |x| / 2) (Finset.sum_congr rfl fun i hi => ?_)
  have hi2 : i < c.length - 1 := Finset.mem_range.mp hi
  have hmod : (i + 1) % (c.length - 1) < c.length - 1 := Nat.mod_lt _ (by omega)
  rw [getD_dropLast c _ i hi2, getD_dropLast c _ _ hmod]

/-- The distinct-vertex part of a closed ring. -/
theorem dropLast_closeRing (v : List (K × K)) (hv : v ≠ []) :
    (closeRing v).dropLast = v := by
  cases v with
  | nil => exact absurd rfl hv
  | cons a t => exact List.dropLast_concat

/-- Length of a closed ring. -/
theorem length_closeRing (v : List (K × K)) (hv : v ≠ []) :
    (closeRing v).length = v.length + 1 := by
  cases v with
  | nil => exact absurd rfl hv
  | cons a t => simp [closeRing]

/-- Reversing a closed ring is closing the head-preserving reversal of its
vertex list. -/
theorem reverse_closeRing (a : K × K) (t : List (K × K)) :
    (closeRing (a :: t)).reverse = closeRing (a :: t.reverse) := by
  simp [closeRing]

/-- The perimeter of a closed ring is the cyclic sum of the pairwise
haversine distances over its distinct vertices. -/
theorem perimeter_closeRing (v : List (ℝ × ℝ)) (h2 : 2 ≤ v.length) :
    calculatePolygonPerimeter (some (closeRing v)) = cyclicSum distPair v := by
  cases v with
  | nil => simp at h2
  | cons a t =>
    have hcr : closeRing (a :: t) = (a :: t) ++ [a] := rfl
    have hlen : ((a :: t) ++ [a]).length = (a :: t).length + 1 := by simp
    simp only [calculatePolygonPerimeter, cyclicSum, distPair, hcr]
    rw [if_neg (by rw [hlen]; simp at h2 ⊢; omega), hlen, Nat.add_sub_cancel]
    refine Finset.sum_congr rfl fun i hi => ?_
    have hi2 : i < (a :: t).length := Finset.mem_range.mp hi
    rw [getD_append_lt _ _ _ i hi2]
    by_cases hc : i + 1 < (a :: t).length
    · rw [getD_append_lt _ _ _ (i + 1) hc, Nat.mod_eq_of_lt hc]
    · have hieq : i + 1 = (a :: t).length := by omega
      rw [hieq, getD_append_len, Nat.mod_self]
      rfl

/-- C9: for every closed ring with at least 3 (distinct) vertices, the
planar shoelace fallback area and the perimeter are unchanged under cyclic
rotation of the starting vertex (keeping the ring closed) and under
reversal of winding direction, and the fallback area is always
non-negative. -/
theorem spec_C9 (v : List (ℝ × ℝ)) (h3 : 3 ≤ v.length) (r : ℕ) :
    calculatePolygonAreaFallback (some (closeRing (v.rotate r))) =
      calculatePolygonAreaFallback (some (closeRing v)) ∧
    calculatePolygonPerimeter (some (closeRing (v.rotate r))) =
      calculatePolygonPerimeter (some (closeRing v)) ∧
    calculatePolygonAreaFallback (some ((closeRing v).reverse)) =
      calculatePolygonAreaFallback (some (closeRing v)) ∧
    calculatePolygonPerimeter (some ((closeRing v).reverse)) =
      calculatePolygonPerimeter (some (closeRing v)) ∧
    (∀ c : Option (List (ℝ × ℝ)), 0 ≤ calculatePolygonAreaFallback c) := by
  obtain ⟨a, t, rfl⟩ : ∃ a t, v = a :: t := by
    cases v with
    | nil => simp at h3
    | cons a t => exact ⟨a, t, rfl⟩
  have hv : (a :: t) ≠ [] := by simp
  have hvr : (a :: t).rotate r ≠ [] := fun hh => hv (List.rotate_eq_nil_iff.mp hh)
  have hlr : ((a :: t).rotate r).length = (a :: t).length := List.length_rotate _ r
  have hne2 : (a :: t.reverse) ≠ [] := by simp
  refine ⟨?_, ?_, ?_, ?_, ?_⟩
  · rw [areaFallback_eq_cyclicSum _ (by rw [length_closeRing _ hvr, hlr]; omega),
      areaFallback_eq_cyclicSum _ (by rw [length_closeRing _ hv]; omega),
      dropLast_closeRing _ hvr, dropLast_closeRing _ hv,
      cyclicSum_rotate crossTerm (a :: t) r hv]
  · rw [perimeter_closeRing _ (by rw [hlr]; omega), perimeter_closeRing _ (by omega),
      cyclicSum_rotate distPair (a :: t) r hv]
  · rw [reverse_closeRing a t,
      areaFallback_eq_cyclicSum _
        (by rw [length_closeRing _ hne2]; simp only [List.length_cons,
          List.length_reverse]; simp only [List.length_cons] at h3; omega),
      areaFallback_eq_cyclicSum _ (by rw [length_closeRing _ hv]; omega),
      dropLast_closeRing _ hne2, dropLast_closeRing _ hv,
      cyclicSum_reverse crossTerm a t, cyclicSum_flip_cross, abs_neg]
  · rw [reverse_closeRing a t,
      perimeter_closeRing _
        (by simp only [List.length_cons, List.length_reverse];
            simp only [List.length_cons] at h3; omega),
      perimeter_closeRing _ (by omega),
      cyclicSum_reverse distPair a t, cyclicSum_flip_symm distPair distPair_symm]
  · intro c
    rcases c with _ | l
    · exact le_refl 0
    · simp only [calculatePolygonAreaFallback]
      split
      · exact le_refl 0
      · positivity

/-- Witness for C9 on a concrete triangle, rotated by one vertex and
reversed. -/
theorem spec_C9_witness :
    calculatePolygonAreaFallback
        (some (closeRing ([((0 : ℝ), (0 : ℝ)), (4, 0), (4, 3)].rotate 1))) =
      calculatePolygonAreaFallback (some (closeRing [((0 : ℝ), (0 : ℝ)), (4, 0), (4, 3)])) ∧
    calculatePolygonPerimeter
        (some ((closeRing [((0 : ℝ), (0 : ℝ)), (4, 0), (4, 3)]).reverse)) =
      calculatePolygonPerimeter (some (closeRing [((0 : ℝ), (0 : ℝ)), (4, 0), (4, 3)])) ∧
    0 ≤ calculatePolygonAreaFallback (some (closeRing [((0 : ℝ), (0 : ℝ)), (4, 0), (4, 3)])) :=
  ⟨(spec_C9 [((0 : ℝ), (0 : ℝ)), (4, 0), (4, 3)] (by decide) 1).1,
    (spec_C9 [((0 : ℝ), (0 : ℝ)), (4, 0), (4, 3)] (by decide) 1).2.2.2.1,
    (spec_C9 [((0 : ℝ), (0 : ℝ)), (4, 0), (4, 3)] (by decide) 1).2.2.2.2
      (some (closeRing [((0 : ℝ), (0 : ℝ)), (4, 0), (4, 3)]))⟩

end SiteInspector


